import Mathlib

/-!
Shallow embedding of the state persistence engine of the ti89-pwa-wrapper
repository.

Source files embedded here:
  * `src/js/storage-fallback.js`   (class `TI89StorageFallback`)
  * `src/js/state-manager.js`      (class `TI89StateManager`)
  * `src/js/ios-state-manager.js`  (class `iOSStateManager`)
  * `src/unnamed/part_001`         (the calculator bridge script)

Modelling conventions:
  * Calculator snapshots are opaque JavaScript objects; they are modelled by a
    type parameter `σ`.  A snapshot object is always truthy in JS, so a
    possibly-absent (undefined/null, hence falsy) snapshot is `Option σ`.
  * `JSON.stringify` and the SHA-256 digest are modelled by explicit function
    parameters `stringify : σ → String` and `hashStr : String → String`.
  * A storage write (`localStorage.setItem`, IndexedDB `put`/`delete`) may
    throw; the environment's choice is an explicit `WriteOutcome` argument.
  * `Date.now()` values are explicit `Nat` arguments, one per call site.
  * Ghost instrumentation: the models carry a counter / log of the underlying
    storage writes actually performed, so that "exactly one write" properties
    can be stated.  These fields are clearly named and never feed back into
    the control flow.
-/

namespace TI89

/-- Outcome of one underlying storage write attempt.  `quotaExceeded`
corresponds to a thrown error whose `name` is `'QuotaExceededError'`;
`otherError` is any other thrown error. -/
inductive WriteOutcome
  | ok
  | quotaExceeded
  | otherError
deriving DecidableEq, Repr

/-! ## Bounded fallback store — `src/js/storage-fallback.js` -/

namespace TI89StorageFallback

/-- One history entry as written by `saveState`:
`{ state: state, timestamp: Date.now(), version: 1 }`. -/
structure FBEntry (σ : Type) where
  state : σ
  timestamp : Nat
  version : Nat
deriving DecidableEq, Repr

/-- The JSON unit stored under `this.storageKey`:
`{ current: ..., history: [...] }`.  `current` is an `Option` because
`importData` may store a payload whose `current` is null, and
`clearOldStates`/`loadState` test `data.current` for truthiness. -/
structure FBData (σ : Type) where
  current : Option (FBEntry σ)
  history : List (FBEntry σ)
deriving DecidableEq, Repr

/-- `this.storageKey = 'ti89_calculator_state'`. -/
def storageKey : String := "ti89_calculator_state"

/-- `this.maxStates = 5` — keep only the last 5 states. -/
def maxStates : Nat := 5

variable {σ : Type}

/-- Insert an entry into a list that is sorted by descending timestamp,
after all entries with a timestamp `≥` its own.  `insertDesc` folded over a
list is exactly the (stable) JS `Array.prototype.sort` with comparator
`(a, b) => b.timestamp - a.timestamp`. -/
def insertDesc (e : FBEntry σ) : List (FBEntry σ) → List (FBEntry σ)
  | [] => [e]
  | x :: xs => if x.timestamp < e.timestamp then e :: x :: xs else x :: insertDesc e xs

/-- Stable sort by descending timestamp:
`.sort((a, b) => b.timestamp - a.timestamp)`. -/
def sortByTimestampDesc (l : List (FBEntry σ)) : List (FBEntry σ) :=
  l.foldl (fun acc e => insertDesc e acc) []

/-- `getAllStates()`: reads the stored unit and returns `data.history || []`;
returns `[]` when storage is unavailable or nothing is stored.  `avail` is
the result of the `isAvailable()` probe, `slot` the content stored under
`storageKey` (`none` = no item). -/
def getAllStates (avail : Bool) (slot : Option (FBData σ)) : List (FBEntry σ) :=
  if !avail then []
  else
    match slot with
    | none => []
    | some d => d.history

/-- `clearOldStates()`: if a unit with a truthy `current` is stored, rewrite
it with an empty history.  The write may itself fail (`o`); the error is
caught and the store is then left unchanged.  Returns the new slot content
and the number of successful underlying writes (ghost). -/
def clearOldStates (avail : Bool) (slot : Option (FBData σ)) (o : WriteOutcome) :
    Option (FBData σ) × Nat :=
  if !avail then (slot, 0)
  else
    match slot with
    | none => (slot, 0)
    | some d =>
      match d.current with
      | none => (slot, 0)
      | some c =>
        match o with
        | WriteOutcome.ok => (some ⟨some c, []⟩, 1)
        | _ => (slot, 0)

/-- Return value of the JS `saveState`: `undefined` on the early
`if (!this.isAvailable() || !state) return;` path, otherwise `true`/`false`. -/
inductive SaveRet
  | undef
  | ret (b : Bool)
deriving DecidableEq, Repr

/-- Result of one fallback `saveState` call: the new slot content, the JS
return value, and (ghost) how many underlying writes succeeded. -/
structure SaveResult (σ : Type) where
  slot : Option (FBData σ)
  ret : SaveRet
  writesDone : Nat
deriving DecidableEq, Repr

/-- `saveState(state)` of `TI89StorageFallback` (src/js/storage-fallback.js
lines 29–77).  `now` is the `Date.now()` of the normal path's `stateData`;
`nowRetry` the second `Date.now()` evaluated on the quota-retry path.
`o1` is the outcome of the main `setItem`, `oClear` of the write inside
`clearOldStates`, `oRetry` of the minimal retry write. -/
def saveState (avail : Bool) (slot : Option (FBData σ)) (state : Option σ)
    (now nowRetry : Nat) (o1 oClear oRetry : WriteOutcome) : SaveResult σ :=
  if !avail then ⟨slot, SaveRet.undef, 0⟩
  else
    match state with
    | none => ⟨slot, SaveRet.undef, 0⟩
    | some st =>
      let stateData : FBEntry σ := ⟨st, now, 1⟩
      let existingStates := getAllStates avail slot
      let recentStates := (sortByTimestampDesc (existingStates ++ [stateData])).take maxStates
      match o1 with
      | WriteOutcome.ok =>
          ⟨some ⟨some stateData, recentStates⟩, SaveRet.ret true, 1⟩
      | WriteOutcome.quotaExceeded =>
          let cleared := clearOldStates avail slot oClear
          match oRetry with
          | WriteOutcome.ok =>
              ⟨some ⟨some ⟨st, nowRetry, 1⟩, []⟩, SaveRet.ret true, cleared.2 + 1⟩
          | _ => ⟨cleared.1, SaveRet.ret false, cleared.2⟩
      | WriteOutcome.otherError => ⟨slot, SaveRet.ret false, 0⟩

/-- `loadState()` of `TI89StorageFallback` (lines 82–102): returns only the
`current` record's state, `null` when unavailable, nothing stored, or the
stored unit has no truthy `current`/`current.state`. -/
def loadState (avail : Bool) (slot : Option (FBData σ)) : Option σ :=
  if !avail then none
  else
    match slot with
    | none => none
    | some d =>
      match d.current with
      | none => none
      | some c => some c.state

/-- `clearState()` of `TI89StorageFallback` (lines 107–116): removes the item
under `storageKey` when storage is available. -/
def clearState (avail : Bool) (slot : Option (FBData σ)) : Option (FBData σ) :=
  if !avail then slot else none

end TI89StorageFallback

/-! ## State manager — `src/js/state-manager.js` -/

namespace TI89StateManager

open TI89StorageFallback

/-- `this.stateKey = 'ti89_session'`. -/
def stateKey : String := "ti89_session"

/-- The expected message origin checked in `setupMessageListener`. -/
def expectedOrigin : String := "https://ti89-simulator.com"

/-- The record put into the IndexedDB object store by `saveState`:
`{ key, state, timestamp, hash }`. -/
structure IDBRecord (σ : Type) where
  key : String
  state : σ
  timestamp : Nat
  hash : String
deriving DecidableEq, Repr

/-- The mutable state of a `TI89StateManager` instance together with the
storage it owns.

  * `dbOpen` — `this.db !== null` (IndexedDB opened successfully);
  * `idbSlot` — the content of the object store under `stateKey`;
  * `useIndexedDB` — the session flag flipped off by write failures;
  * `hasFallback` — `this.fallbackStorage !== null` (a `TI89StorageFallback`
    instance exists; it is created only when `initDB` fails);
  * `lsSlot` — the localStorage content under the fallback's key;
  * `lastStateHash` — the remembered deduplication digest;
  * `writes` — ghost counter of successful underlying storage writes. -/
structure Manager (σ : Type) where
  dbOpen : Bool
  idbSlot : Option (IDBRecord σ)
  useIndexedDB : Bool
  hasFallback : Bool
  lsSlot : Option (FBData σ)
  lastStateHash : Option String
  writes : Nat
deriving DecidableEq, Repr

/-- Constructor plus `initStorage()` (lines 7–35): on a successful `initDB`
the manager keeps `useIndexedDB = true` and never constructs the fallback
store; on failure it permanently downgrades (`useIndexedDB = false`) and
creates the `TI89StorageFallback` instance.  `idb0`/`ls0` are whatever the
two backends already hold from earlier sessions. -/
def init (idbInitOk : Bool) (idb0 : Option (IDBRecord σ)) (ls0 : Option (FBData σ)) :
    Manager σ :=
  if idbInitOk then
    { dbOpen := true, idbSlot := idb0, useIndexedDB := true, hasFallback := false,
      lsSlot := ls0, lastStateHash := none, writes := 0 }
  else
    { dbOpen := false, idbSlot := idb0, useIndexedDB := false, hasFallback := true,
      lsSlot := ls0, lastStateHash := none, writes := 0 }

/-- The write outcomes one `saveState` call can consume: the synchronous
behaviour of the IndexedDB `transaction`/`put` (`idbPut`), and the three
possible writes of a fallback `saveState` call. -/
structure MSaveOutcomes where
  idbPut : WriteOutcome
  fb1 : WriteOutcome
  fbClear : WriteOutcome
  fbRetry : WriteOutcome
deriving DecidableEq, Repr

/-- All writes succeed. -/
def allOk : MSaveOutcomes :=
  ⟨WriteOutcome.ok, WriteOutcome.ok, WriteOutcome.ok, WriteOutcome.ok⟩

/-- `saveState(state)` of `TI89StateManager` (lines 94–144).

Faithfulness notes:
  * `!state` guard: an absent state returns immediately.
  * the digest is `hashString(JSON.stringify(state))`, compared against
    `this.lastStateHash`; equality skips the call entirely.
  * the IndexedDB branch runs under `this.useIndexedDB && this.db`; a thrown
    `transaction`/`put` is caught, flips `useIndexedDB` off for the session
    and leaves `success` false.  A successful `put` stores
    `{key: stateKey, state, timestamp: Date.now(), hash}`.
  * the fallback branch runs under `!success && this.fallbackStorage`.  The
    JS assigns `success = this.fallbackStorage.saveState(state)` WITHOUT
    awaiting the async call: `success` becomes a Promise object, which is
    truthy, so the subsequent `if (success)` treats the call as successful
    regardless of the fallback's actual boolean result.  The model therefore
    sets the success flag to `true` whenever this branch is taken.
  * on (perceived) success `lastStateHash` is updated. -/
def saveState (stringify : σ → String) (hashStr : String → String)
    (m : Manager σ) (state : Option σ) (now nowRetry : Nat)
    (fbAvail : Bool) (o : MSaveOutcomes) : Manager σ :=
  match state with
  | none => m
  | some st =>
    let stateHash := hashStr (stringify st)
    if m.lastStateHash = some stateHash then m
    else
      let idbTry :=
        if m.useIndexedDB && m.dbOpen then
          match o.idbPut with
          | WriteOutcome.ok =>
              ({ m with idbSlot := some ⟨stateKey, st, now, stateHash⟩,
                        writes := m.writes + 1 }, true)
          | _ => ({ m with useIndexedDB := false }, false)
        else (m, false)
      let m1 := idbTry.1
      let fbTry :=
        if !idbTry.2 && m1.hasFallback then
          let r := TI89StorageFallback.saveState fbAvail m1.lsSlot (some st)
                     now nowRetry o.fb1 o.fbClear o.fbRetry
          ({ m1 with lsSlot := r.slot, writes := m1.writes + r.writesDone }, true)
        else (m1, idbTry.2)
      if fbTry.2 then { fbTry.1 with lastStateHash := some stateHash } else fbTry.1

/-- `loadState()` of `TI89StateManager` (lines 149–192), as a promise: the
caller observes `Except.error` exactly when the promise rejects.

Faithfulness notes:
  * under `this.useIndexedDB && this.db` the function returns the promise
    built around the IndexedDB `get` request.  Because that promise is
    returned without `await`, neither the inner nor the outer
    `try`/`catch` can intercept its rejection: a failing read request
    (`request.onerror`, modelled by `idbRead ≠ ok`) rejects the promise the
    caller received.  Likewise a synchronous `transaction` throw inside the
    promise executor rejects the promise rather than reaching the inner
    `catch`, so the `useIndexedDB = false` line there is unreachable.
  * a successful read of a present record also stores its `hash` into
    `lastStateHash`.
  * otherwise the fallback store is consulted when it exists; its own
    `loadState` never throws.  -/
def loadState (m : Manager σ) (idbRead : WriteOutcome) (fbAvail : Bool) :
    Except WriteOutcome (Option σ) × Manager σ :=
  if m.useIndexedDB && m.dbOpen then
    match idbRead with
    | WriteOutcome.ok =>
      match m.idbSlot with
      | some r => (Except.ok (some r.state), { m with lastStateHash := some r.hash })
      | none => (Except.ok none, m)
    | e => (Except.error e, m)
  else if m.hasFallback then
    (Except.ok (TI89StorageFallback.loadState fbAvail m.lsSlot), m)
  else
    (Except.ok none, m)

/-- `clearState()` of `TI89StateManager` (lines 197–227): best-effort delete
from IndexedDB (under `useIndexedDB && db`; a thrown delete is caught and
leaves `cleared` false), then unconditionally `fallbackStorage.clearState()`
when the fallback instance exists (which sets `cleared = true`).  When
`cleared`, the remembered digest is reset. -/
def clearState (m : Manager σ) (idbDel : WriteOutcome) (fbAvail : Bool) : Manager σ :=
  let idbTry :=
    if m.useIndexedDB && m.dbOpen then
      match idbDel with
      | WriteOutcome.ok => ({ m with idbSlot := none }, true)
      | _ => (m, false)
    else (m, false)
  let m1 := idbTry.1
  let fbTry :=
    if m1.hasFallback then
      ({ m1 with lsSlot := TI89StorageFallback.clearState fbAvail m1.lsSlot }, true)
    else (m1, idbTry.2)
  if fbTry.2 then { fbTry.1 with lastStateHash := none } else fbTry.1

/-- The `data` field of an inbound `message` event: it may lack `type` or
`state`. -/
structure MsgData (σ : Type) where
  msgType : Option String
  state : Option σ
deriving DecidableEq, Repr

/-- An inbound cross-context message: `event.origin` and `event.data`
(`none` models a falsy `event.data`). -/
structure Message (σ : Type) where
  origin : String
  data : Option (MsgData σ)
deriving DecidableEq, Repr

/-- The listener installed by `setupMessageListener` (lines 78–89): drop the
message unless the origin matches `expectedOrigin` and
`event.data && event.data.type === 'TI89_STATE'`; otherwise call
`saveState(event.data.state)`. -/
def onMessage (stringify : σ → String) (hashStr : String → String)
    (m : Manager σ) (msg : Message σ) (now nowRetry : Nat)
    (fbAvail : Bool) (o : MSaveOutcomes) : Manager σ :=
  if msg.origin ≠ expectedOrigin then m
  else
    match msg.data with
    | none => m
    | some d =>
      if d.msgType = some "TI89_STATE" then
        saveState stringify hashStr m d.state now nowRetry fbAvail o
      else m

end TI89StateManager

/-! ## Capture bridge — `src/unnamed/part_001` (calculator bridge script) -/

namespace CalculatorBridge

/-- The bridge's mutable state: `lastScreenCapture` holds the serialization
of the last emitted snapshot (`null` initially). -/
structure Bridge where
  lastScreenCapture : Option String
deriving DecidableEq, Repr

/-- One `window.parent.postMessage(msg, targetOrigin)` call. -/
structure PostedMsg (σ : Type) where
  msgType : String
  state : σ
  targetOrigin : String
deriving DecidableEq, Repr

/-- `captureCalculatorState()` (src/unnamed/part_001 lines 17–51).  The
snapshot gathering (`captureCanvasData` etc.) reads the environment; the
gathered snapshot is the argument `gathered`.  If its serialization equals
`lastScreenCapture` nothing happens; otherwise `lastScreenCapture` is
updated and, when the script runs embedded (`window.parent !== window`,
argument `hasParent`), exactly one message
`{type: 'TI89_STATE', state}` is posted with target origin `'*'`.
Returns the new bridge state and the list of messages posted by this call. -/
def captureCalculatorState {σ : Type} (stringify : σ → String)
    (b : Bridge) (gathered : σ) (hasParent : Bool) :
    Bridge × List (PostedMsg σ) :=
  let stateString := stringify gathered
  if b.lastScreenCapture = some stateString then (b, [])
  else
    (⟨some stateString⟩,
     if hasParent then [⟨"TI89_STATE", gathered, "*"⟩] else [])

end CalculatorBridge

/-! ## Lifecycle-driven fallback manager — `src/js/ios-state-manager.js` -/

namespace IOSStateManager

/-- The environment values a poll reads: two `Date.now()` calls (`now` inside
the captured record, `now2` inside `saveState`'s wrapper), plus
`navigator.userAgent` and the viewport size. -/
structure IOSEnv where
  now : Nat
  now2 : Nat
  userAgent : String
  viewportW : Nat
  viewportH : Nat
deriving DecidableEq, Repr

/-- The `{url, timestamp, userAgent, viewport}` record built by
`captureIframeState`. -/
structure IOSRecord where
  url : String
  timestamp : Nat
  userAgent : String
  viewportW : Nat
  viewportH : Nat
deriving DecidableEq, Repr

/-- The wrapper `{state, timestamp, version: '1.1'}` stored under
`this.storageKey`. -/
structure IOSStored where
  state : IOSRecord
  timestamp : Nat
  version : String
deriving DecidableEq, Repr

/-- What one poll can observe of the embedded frame: reading
`contentWindow.location.href` either yields a string or throws (CORS,
modelled by `none`), in which case the code falls back to `iframe.src`. -/
structure IFrameObs where
  href : Option String
  src : String
deriving DecidableEq, Repr

/-- The mutable state of an `iOSStateManager` plus its two localStorage
slots.  `saveLog` is a ghost log of the records passed to `saveState` calls
that got past the availability guard (each such call is "a save firing"). -/
structure IOSManager where
  iframeSet : Bool
  storageAvailable : Bool
  lastUrl : String
  slotState : Option IOSStored
  slotUrl : Option String
  saveLog : List IOSRecord
deriving DecidableEq, Repr

/-- `saveState(state)` of `iOSStateManager` (lines 112–135): store
`{state, timestamp: Date.now(), version: '1.1'}` under `storageKey` and
`state.url || ''` under `urlStorageKey`; any thrown write is caught and the
call returns `false`.  `o1`/`o2` are the outcomes of the two `setItem`s; a
failure of the second still leaves the first write applied. -/
def saveState (m : IOSManager) (state : Option IOSRecord) (now : Nat)
    (o1 o2 : WriteOutcome) : IOSManager × Bool :=
  match state with
  | none => (m, false)
  | some st =>
    if !m.storageAvailable then (m, false)
    else
      let m0 := { m with saveLog := m.saveLog ++ [st] }
      match o1 with
      | WriteOutcome.ok =>
        let m1 := { m0 with slotState := some ⟨st, now, "1.1"⟩ }
        match o2 with
        | WriteOutcome.ok => ({ m1 with slotUrl := some st.url }, true)
        | _ => (m1, false)
      | _ => (m0, false)

/-- `captureIframeState()` of `iOSStateManager` (lines 75–107): the address
poll.  Requires the iframe reference and available storage; reads the
frame's address (direct read first, `src` on a CORS throw); when the value
is non-empty, differs from `lastUrl` and is not `'about:blank'`, records it
in `lastUrl` and saves a `{url, timestamp, userAgent, viewport}` record. -/
def captureIframeState (m : IOSManager) (frame : IFrameObs) (env : IOSEnv)
    (o1 o2 : WriteOutcome) : IOSManager :=
  if !m.iframeSet || !m.storageAvailable then m
  else
    let currentUrl :=
      match frame.href with
      | some h => h
      | none => frame.src
    if currentUrl ≠ "" ∧ currentUrl ≠ m.lastUrl ∧ currentUrl ≠ "about:blank" then
      let st : IOSRecord :=
        ⟨currentUrl, env.now, env.userAgent, env.viewportW, env.viewportH⟩
      let m1 := { m with lastUrl := currentUrl }
      (saveState m1 (some st) env.now2 o1 o2).1
    else m

end IOSStateManager

/-! ## Save scripts and the history invariant for the fallback store -/

namespace TI89StorageFallback

variable {σ : Type}

/-- One scripted fallback `saveState` call: the snapshot, the two `Date.now()`
values it may read, and the three write outcomes it may consume. -/
structure FBSaveOp (σ : Type) where
  state : σ
  now : Nat
  nowRetry : Nat
  o1 : WriteOutcome
  oClear : WriteOutcome
  oRetry : WriteOutcome
deriving DecidableEq, Repr

/-- The history entry a scripted save creates on its normal path. -/
def savedEntry (op : FBSaveOp σ) : FBEntry σ := ⟨op.state, op.now, 1⟩

/-- Run a sequence of fallback `saveState` calls against the store (storage
available throughout), returning the final slot content. -/
def runSaves (slot : Option (FBData σ)) : List (FBSaveOp σ) → Option (FBData σ)
  | [] => slot
  | op :: rest =>
      runSaves (saveState true slot (some op.state) op.now op.nowRetry
                  op.o1 op.oClear op.oRetry).slot rest

/-- Invariant tying the stored unit to the ghost log of all history entries
created so far (starting from an empty store): the history holds
`min log.length maxStates` entries, every logged entry missing from the
history is no more recent than any retained one, and as long as at most
`maxStates` entries were ever created they are all retained. -/
def FBInvariant (log : List (FBEntry σ)) (slot : Option (FBData σ)) : Prop :=
  match slot with
  | none => log = []
  | some d =>
      d.history.length = min log.length maxStates ∧
      (∀ x ∈ log, x ∉ d.history → ∀ r ∈ d.history, x.timestamp ≤ r.timestamp) ∧
      (log.length ≤ maxStates → ∀ x ∈ log, x ∈ d.history)

/-- Descending-by-timestamp sortedness. -/
def SortedDesc (l : List (FBEntry σ)) : Prop :=
  l.Pairwise (fun a b => b.timestamp ≤ a.timestamp)

/-- A fully successful scripted save of snapshot `s` at time `t`. -/
def okSave (s t : Nat) : FBSaveOp Nat :=
  ⟨s, t, t, WriteOutcome.ok, WriteOutcome.ok, WriteOutcome.ok⟩

/-- The spec scenario: seven distinct snapshots saved at strictly increasing
timestamps. -/
def sevenSaves : List (FBSaveOp Nat) :=
  [okSave 1 1, okSave 2 2, okSave 3 3, okSave 4 4, okSave 5 5, okSave 6 6, okSave 7 7]

end TI89StorageFallback

/-! ## Lemmas about the fallback store's sort and history -/

namespace TI89StorageFallback

open List

variable {σ : Type}

theorem insertDesc_perm (e : FBEntry σ) (l : List (FBEntry σ)) :
    insertDesc e l ~ e :: l := by
  induction l with
  | nil => simp [insertDesc]
  | cons x xs ih =>
    unfold insertDesc
    by_cases h : x.timestamp < e.timestamp
    · simp [h]
    · simp only [if_neg h]
      exact (ih.cons x).trans (List.Perm.swap e x xs)

theorem sortedDesc_insertDesc {e : FBEntry σ} {l : List (FBEntry σ)}
    (h : SortedDesc l) : SortedDesc (insertDesc e l) := by
  induction l with
  | nil => simp [insertDesc, SortedDesc]
  | cons x xs ih =>
    rw [SortedDesc, List.pairwise_cons] at h
    obtain ⟨hx, hxs⟩ := h
    unfold insertDesc
    by_cases hc : x.timestamp < e.timestamp
    · simp only [if_pos hc]
      rw [SortedDesc, List.pairwise_cons]
      refine ⟨?_, ?_⟩
      · intro b hb
        rcases List.mem_cons.mp hb with rfl | hb
        · exact Nat.le_of_lt hc
        · exact le_trans (hx b hb) (Nat.le_of_lt hc)
      · rw [List.pairwise_cons]; exact ⟨hx, hxs⟩
    · simp only [if_neg hc]
      rw [SortedDesc, List.pairwise_cons]
      refine ⟨?_, ih hxs⟩
      intro b hb
      rcases List.mem_cons.mp ((insertDesc_perm e xs).mem_iff.mp hb) with rfl | hb'
      · exact Nat.le_of_not_lt hc
      · exact hx b hb'

theorem sortInsert_foldl_perm :
    ∀ (l acc : List (FBEntry σ)),
      l.foldl (fun a e => insertDesc e a) acc ~ acc ++ l := by
  intro l
  induction l with
  | nil => intro acc; simp
  | cons x xs ih =>
    intro acc
    simp only [List.foldl_cons]
    calc xs.foldl (fun a e => insertDesc e a) (insertDesc x acc)
        ~ insertDesc x acc ++ xs := ih _
      _ ~ (x :: acc) ++ xs := (insertDesc_perm x acc).append_right xs
      _ ~ acc ++ x :: xs := List.perm_middle.symm

theorem sortByTimestampDesc_perm (l : List (FBEntry σ)) :
    sortByTimestampDesc l ~ l := by
  simpa [sortByTimestampDesc] using sortInsert_foldl_perm l []

theorem sortedDesc_foldl :
    ∀ (l acc : List (FBEntry σ)), SortedDesc acc →
      SortedDesc (l.foldl (fun a e => insertDesc e a) acc) := by
  intro l
  induction l with
  | nil => intro acc h; simpa using h
  | cons x xs ih =>
    intro acc h
    simp only [List.foldl_cons]
    exact ih _ (sortedDesc_insertDesc h)

theorem sortedDesc_sortByTimestampDesc (l : List (FBEntry σ)) :
    SortedDesc (sortByTimestampDesc l) :=
  sortedDesc_foldl l [] (by simp [SortedDesc])

theorem sortedDesc_drop_le_take {l : List (FBEntry σ)} (h : SortedDesc l)
    {n : Nat} {a b : FBEntry σ} (ha : a ∈ l.take n) (hb : b ∈ l.drop n) :
    b.timestamp ≤ a.timestamp := by
  rw [SortedDesc, ← List.take_append_drop n l, List.pairwise_append] at h
  exact h.2.2 a ha b hb

theorem saveState_ok_slot (slot : Option (FBData σ)) (st : σ) (now nowR : Nat)
    (oC oR : WriteOutcome) :
    (saveState true slot (some st) now nowR WriteOutcome.ok oC oR).slot
      = some ⟨some ⟨st, now, 1⟩,
              (sortByTimestampDesc (getAllStates true slot ++ [⟨st, now, 1⟩])).take maxStates⟩ :=
  rfl

theorem fbInvariant_getAllStates {log : List (FBEntry σ)} {slot : Option (FBData σ)}
    (h : FBInvariant log slot) :
    (getAllStates true slot).length = min log.length maxStates ∧
    (∀ x ∈ log, x ∉ getAllStates true slot →
      ∀ r ∈ getAllStates true slot, x.timestamp ≤ r.timestamp) ∧
    (log.length ≤ maxStates → ∀ x ∈ log, x ∈ getAllStates true slot) := by
  cases slot with
  | none =>
    rw [FBInvariant] at h
    subst h
    simp [getAllStates]
  | some d =>
    simpa [getAllStates, FBInvariant] using h

theorem fbInvariant_step [DecidableEq σ] {log : List (FBEntry σ)}
    {slot : Option (FBData σ)} (st : σ) (now nowR : Nat) (oC oR : WriteOutcome)
    (h : FBInvariant log slot) :
    FBInvariant (log ++ [⟨st, now, 1⟩])
      ((saveState true slot (some st) now nowR WriteOutcome.ok oC oR).slot) := by
  obtain ⟨hlen0, hdedup0, hmem0⟩ := fbInvariant_getAllStates h
  rw [saveState_ok_slot]
  set e : FBEntry σ := ⟨st, now, 1⟩ with he
  set hist0 := getAllStates true slot with hh0
  set S := sortByTimestampDesc (hist0 ++ [e]) with hS
  have hperm : S ~ hist0 ++ [e] := sortByTimestampDesc_perm _
  have hsorted : SortedDesc S := sortedDesc_sortByTimestampDesc _
  have hSlen : S.length = hist0.length + 1 := by
    simpa using hperm.length_eq
  rw [FBInvariant]
  refine ⟨?_, ?_, ?_⟩
  · -- length of the retained history
    simp only [List.length_take, List.length_append, List.length_singleton, hSlen, hlen0,
      maxStates] at *
    omega
  · -- every logged-but-dropped entry is no more recent than any retained one
    intro x hx hxnot r hr
    have hrS : r ∈ S := List.mem_of_mem_take hr
    have dropCase : x ∈ S → x.timestamp ≤ r.timestamp := by
      intro hxS
      have hx2 : x ∈ S.take maxStates ++ S.drop maxStates := by
        rw [List.take_append_drop]; exact hxS
      rcases List.mem_append.mp hx2 with hxt | hxd
      · exact absurd hxt hxnot
      · exact sortedDesc_drop_le_take hsorted hr hxd
    rcases List.mem_append.mp hx with hxlog | hxe
    · by_cases hxh : x ∈ hist0
      · exact dropCase (hperm.mem_iff.mpr (List.mem_append.mpr (Or.inl hxh)))
      · rcases List.mem_append.mp (hperm.mem_iff.mp hrS) with hrh | hre
        · exact hdedup0 x hxlog hxh r hrh
        · -- r is the freshly inserted entry
          have hre' : r = e := List.mem_singleton.mp hre
          subst hre'
          by_cases heh : e ∈ hist0
          · exact hdedup0 x hxlog hxh e heh
          · have hlog5 : ¬ log.length ≤ maxStates := fun hle => hxh (hmem0 hle x hxlog)
            have hh5 : hist0.length = maxStates := by
              simp only [maxStates] at *; omega
            have hS6 : S.length = maxStates + 1 := by omega
            have hdroplen : (S.drop maxStates).length = 1 := by
              simp [List.length_drop, hS6]
            have hdropne : S.drop maxStates ≠ [] := by
              intro hnil; rw [hnil] at hdroplen; simp at hdroplen
            obtain ⟨z, hz⟩ := List.exists_mem_of_ne_nil _ hdropne
            have hzS : z ∈ S := List.mem_of_mem_drop hz
            rcases List.mem_append.mp (hperm.mem_iff.mp hzS) with hzh | hze
            · exact le_trans (hdedup0 x hxlog hxh z hzh)
                (sortedDesc_drop_le_take hsorted hr hz)
            · -- the dropped occurrence would be the fresh entry itself:
              -- impossible, since it occurs once and is also retained
              have hze' : z = e := List.mem_singleton.mp hze
              subst hze'
              have hcount : S.count e = 1 := by
                rw [hperm.count_eq, List.count_append]
                rw [List.count_eq_zero.mpr heh]
                simp
              have hctd : (S.take maxStates).count e + (S.drop maxStates).count e = 1 := by
                rw [← List.count_append, List.take_append_drop]
                exact hcount
              have h1 : 0 < (S.take maxStates).count e := List.count_pos_iff.mpr hr
              have h2 : 0 < (S.drop maxStates).count e := List.count_pos_iff.mpr hz
              omega
    · -- the fresh entry itself was dropped straight away
      have hxe' : x = e := List.mem_singleton.mp hxe
      subst hxe'
      exact dropCase (hperm.mem_iff.mpr (List.mem_append.mpr (Or.inr (List.mem_singleton.mpr rfl))))
  · -- with at most maxStates entries ever created, all are retained
    intro hlen x hx
    have hlog4 : log.length + 1 ≤ maxStates := by
      simpa using hlen
    have hh4 : hist0.length + 1 ≤ maxStates := by
      simp only [maxStates] at *; omega
    have htake : S.take maxStates = S := List.take_of_length_le (by omega)
    rw [htake]
    rcases List.mem_append.mp hx with hxlog | hxe
    · exact hperm.mem_iff.mpr
        (List.mem_append.mpr (Or.inl (hmem0 (by omega) x hxlog)))
    · have hxe' : x = e := List.mem_singleton.mp hxe
      subst hxe'
      exact hperm.mem_iff.mpr (List.mem_append.mpr (Or.inr (List.mem_singleton.mpr rfl)))

theorem fbInvariant_runSaves [DecidableEq σ] :
    ∀ (saves : List (FBSaveOp σ)) (slot : Option (FBData σ)) (log : List (FBEntry σ)),
      (∀ op ∈ saves, op.o1 = WriteOutcome.ok) →
      FBInvariant log slot →
      FBInvariant (log ++ saves.map savedEntry) (runSaves slot saves) := by
  intro saves
  induction saves with
  | nil => intro slot log _ h; simpa [runSaves] using h
  | cons op rest ih =>
    intro slot log hok h
    have hop : op.o1 = WriteOutcome.ok := hok op (List.mem_cons_self op rest)
    have hstep := fbInvariant_step op.state op.now op.nowRetry op.oClear op.oRetry h
    rw [← hop] at hstep
    have hrest : ∀ o ∈ rest, o.o1 = WriteOutcome.ok :=
      fun o ho => hok o (List.mem_cons_of_mem _ ho)
    have := ih _ (log ++ [savedEntry op]) hrest hstep
    simpa [runSaves, savedEntry] using this

/-- `clearOldStates` either leaves the slot unchanged or rewrites it with an
empty history. -/
theorem clearOldStates_cases (avail : Bool) (slot : Option (FBData σ))
    (o : WriteOutcome) :
    (clearOldStates avail slot o).1 = slot ∨
      ∃ c, (clearOldStates avail slot o).1 = some ⟨some c, []⟩ := by
  unfold clearOldStates
  cases avail with
  | false => simp
  | true =>
    cases slot with
    | none => simp
    | some d =>
      cases hcur : d.current with
      | none => simp [hcur]
      | some c =>
        cases o with
        | ok => exact Or.inr ⟨c, by simp [hcur]⟩
        | quotaExceeded => simp [hcur]
        | otherError => simp [hcur]

/-- Each single `saveState` call, whatever its outcomes, leaves a stored
history of at most `maxStates` entries (provided the store held at most that
many before). -/
theorem saveState_history_le (avail : Bool) (slot : Option (FBData σ))
    (state : Option σ) (now nowR : Nat) (o1 oC oR : WriteOutcome)
    (h : ∀ d, slot = some d → d.history.length ≤ maxStates) :
    ∀ d, (saveState avail slot state now nowR o1 oC oR).slot = some d →
      d.history.length ≤ maxStates := by
  intro d hd
  cases avail with
  | false => exact h d hd
  | true =>
    cases state with
    | none => exact h d hd
    | some st =>
      cases o1 with
      | ok =>
        rw [saveState_ok_slot] at hd
        cases hd
        simp [List.length_take_le]
      | quotaExceeded =>
        have hclear := clearOldStates_cases true slot oC
        cases oR with
        | ok =>
          simp only [saveState] at hd
          cases hd
          simp
        | quotaExceeded =>
          have hd' : (clearOldStates true slot oC).1 = some d := hd
          rcases hclear with heq | ⟨c, heq⟩
          · exact h d (heq ▸ hd')
          · rw [heq] at hd'
            cases hd'
            simp
        | otherError =>
          have hd' : (clearOldStates true slot oC).1 = some d := hd
          rcases hclear with heq | ⟨c, heq⟩
          · exact h d (heq ▸ hd')
          · rw [heq] at hd'
            cases hd'
            simp
      | otherError => exact h d hd

theorem runSaves_history_le :
    ∀ (saves : List (FBSaveOp σ)) (slot : Option (FBData σ)),
      (∀ d, slot = some d → d.history.length ≤ maxStates) →
      ∀ d, runSaves slot saves = some d → d.history.length ≤ maxStates := by
  intro saves
  induction saves with
  | nil => intro slot h d hd; exact h d hd
  | cons op rest ih =>
    intro slot h d hd
    exact ih _ (saveState_history_le _ _ _ _ _ _ _ _ h) d hd

end TI89StorageFallback

/-! ## Claim theorems -/

open TI89StorageFallback TI89StateManager CalculatorBridge IOSStateManager

/-- C4: after any sequence of fallback-tier `saveState` calls (whatever the
write outcomes) the stored history never exceeds `maxStates` (5) entries;
over any sequence of successful saves starting from an empty store, every
entry saved so far that is not retained in the history is no more recent
than any retained entry (most-recent-by-timestamp subset); and in
particular saving seven distinct states at strictly increasing timestamps
1..7 leaves a history of length 5 holding exactly states 3 through 7,
newest first. -/
theorem fallback_history_bounded_and_most_recent {σ : Type} [DecidableEq σ]
    (saves : List (FBSaveOp σ)) :
    (∀ d, runSaves (σ := σ) none saves = some d → d.history.length ≤ maxStates) ∧
    ((∀ op ∈ saves, op.o1 = WriteOutcome.ok) →
      ∀ d, runSaves (σ := σ) none saves = some d →
        ∀ x ∈ saves.map savedEntry, x ∉ d.history →
          ∀ r ∈ d.history, x.timestamp ≤ r.timestamp) ∧
    runSaves none sevenSaves =
      some ⟨some ⟨7, 7, 1⟩, [⟨7, 7, 1⟩, ⟨6, 6, 1⟩, ⟨5, 5, 1⟩, ⟨4, 4, 1⟩, ⟨3, 3, 1⟩]⟩ := by
  refine ⟨?_, ?_, by decide⟩
  · exact runSaves_history_le saves none (by intro d hd; cases hd)
  · intro hok d hd
    have hinv := fbInvariant_runSaves saves none [] hok rfl
    rw [hd] at hinv
    rw [FBInvariant] at hinv
    simpa using hinv.2.1

/-- Witness for C4: a concrete dropped entry (state 1) is no more recent
than a concrete retained one (state 3), and the seven-save scenario result. -/
theorem fallback_history_bounded_and_most_recent_witness :
    ((⟨1, 1, 1⟩ : FBEntry Nat)).timestamp ≤ ((⟨3, 3, 1⟩ : FBEntry Nat)).timestamp ∧
    runSaves none sevenSaves =
      some ⟨some ⟨7, 7, 1⟩, [⟨7, 7, 1⟩, ⟨6, 6, 1⟩, ⟨5, 5, 1⟩, ⟨4, 4, 1⟩, ⟨3, 3, 1⟩]⟩ :=
  ⟨(fallback_history_bounded_and_most_recent sevenSaves).2.1 (by decide)
      ⟨some ⟨7, 7, 1⟩, [⟨7, 7, 1⟩, ⟨6, 6, 1⟩, ⟨5, 5, 1⟩, ⟨4, 4, 1⟩, ⟨3, 3, 1⟩]⟩ (by decide)
      ⟨1, 1, 1⟩ (by decide) (by decide) ⟨3, 3, 1⟩ (by decide),
   (fallback_history_bounded_and_most_recent sevenSaves).2.2⟩

/-- C5: when the fallback-tier `saveState` write fails with a
capacity-exceeded (`QuotaExceededError`) error, the store is rewritten with
zero history entries and only the current record; if the retry write
succeeds the call returns true and `loadState` afterwards returns the new
current state; if the retry also fails the call returns false. -/
theorem fallback_quota_clear_retry {σ : Type} (slot : Option (FBData σ)) (st : σ)
    (now nowRetry : Nat) (oClear : WriteOutcome) :
    (TI89StorageFallback.saveState true slot (some st) now nowRetry
        WriteOutcome.quotaExceeded oClear WriteOutcome.ok).slot
      = some ⟨some ⟨st, nowRetry, 1⟩, []⟩ ∧
    (TI89StorageFallback.saveState true slot (some st) now nowRetry
        WriteOutcome.quotaExceeded oClear WriteOutcome.ok).ret = SaveRet.ret true ∧
    TI89StorageFallback.loadState true
        (TI89StorageFallback.saveState true slot (some st) now nowRetry
          WriteOutcome.quotaExceeded oClear WriteOutcome.ok).slot = some st ∧
    (∀ oRetry, oRetry ≠ WriteOutcome.ok →
      (TI89StorageFallback.saveState true slot (some st) now nowRetry
        WriteOutcome.quotaExceeded oClear oRetry).ret = SaveRet.ret false) := by
  refine ⟨rfl, rfl, rfl, ?_⟩
  intro oRetry hne
  cases oRetry with
  | ok => exact absurd rfl hne
  | quotaExceeded => rfl
  | otherError => rfl

/-- Witness for C5 at a concrete store, snapshot and outcomes. -/
theorem fallback_quota_clear_retry_witness :
    TI89StorageFallback.loadState true
        (TI89StorageFallback.saveState true (none : Option (FBData Nat)) (some 1) 5 6
          WriteOutcome.quotaExceeded WriteOutcome.ok WriteOutcome.ok).slot = some 1 ∧
    (TI89StorageFallback.saveState true (none : Option (FBData Nat)) (some 1) 5 6
        WriteOutcome.quotaExceeded WriteOutcome.ok WriteOutcome.otherError).ret
      = SaveRet.ret false :=
  ⟨(fallback_quota_clear_retry none 1 5 6 WriteOutcome.ok).2.2.1,
   (fallback_quota_clear_retry none 1 5 6 WriteOutcome.ok).2.2.2
      WriteOutcome.otherError (by decide)⟩

/-- Helper: the shape of a primary-tier `saveState` whose IndexedDB write
succeeds and whose digest differs from the remembered one. -/
theorem manager_saveState_primary_ok {σ : Type} [DecidableEq σ]
    (stringify : σ → String) (hashStr : String → String) (m : Manager σ) (s : σ)
    (n : Nat) (fbAvail : Bool)
    (hIdb : m.useIndexedDB = true) (hdb : m.dbOpen = true)
    (hfresh : m.lastStateHash ≠ some (hashStr (stringify s))) :
    TI89StateManager.saveState stringify hashStr m (some s) n n fbAvail allOk
      = { m with idbSlot := some ⟨stateKey, s, n, hashStr (stringify s)⟩,
                 writes := m.writes + 1,
                 lastStateHash := some (hashStr (stringify s)) } := by
  unfold TI89StateManager.saveState
  simp [hIdb, hdb, hfresh, allOk]

/-- C3: with the primary tier active and its write succeeding, saving the
same snapshot twice performs exactly one underlying storage write — the
second call is a digest-based no-op that changes nothing at all; saving two
snapshots whose digests differ performs two writes, and `loadState()`
afterwards returns the second snapshot. -/
theorem manager_save_dedup_two_writes {σ : Type} [DecidableEq σ]
    (stringify : σ → String) (hashStr : String → String) (m : Manager σ)
    (s1 s2 : σ) (n1 n2 : Nat) (fbAvail : Bool)
    (hIdb : m.useIndexedDB = true) (hdb : m.dbOpen = true)
    (hfresh : m.lastStateHash ≠ some (hashStr (stringify s1))) :
    (TI89StateManager.saveState stringify hashStr m (some s1) n1 n1 fbAvail allOk).writes
        = m.writes + 1 ∧
    TI89StateManager.saveState stringify hashStr
        (TI89StateManager.saveState stringify hashStr m (some s1) n1 n1 fbAvail allOk)
        (some s1) n2 n2 fbAvail allOk
      = TI89StateManager.saveState stringify hashStr m (some s1) n1 n1 fbAvail allOk ∧
    (hashStr (stringify s2) ≠ hashStr (stringify s1) →
      (TI89StateManager.saveState stringify hashStr
          (TI89StateManager.saveState stringify hashStr m (some s1) n1 n1 fbAvail allOk)
          (some s2) n2 n2 fbAvail allOk).writes = m.writes + 2 ∧
      (TI89StateManager.loadState
          (TI89StateManager.saveState stringify hashStr
            (TI89StateManager.saveState stringify hashStr m (some s1) n1 n1 fbAvail allOk)
            (some s2) n2 n2 fbAvail allOk)
          WriteOutcome.ok fbAvail).1 = Except.ok (some s2)) := by
  have hm1 := manager_saveState_primary_ok stringify hashStr m s1 n1 fbAvail hIdb hdb hfresh
  refine ⟨by rw [hm1], ?_, ?_⟩
  · rw [hm1]
    unfold TI89StateManager.saveState
    simp
  · intro hne
    have hfresh2 : ({ m with
        idbSlot := some ⟨stateKey, s1, n1, hashStr (stringify s1)⟩
        writes := m.writes + 1
        lastStateHash := some (hashStr (stringify s1)) } : Manager σ).lastStateHash
        ≠ some (hashStr (stringify s2)) := by
      simp [Ne.symm hne]
    have hm2 := manager_saveState_primary_ok stringify hashStr
      ({ m with
        idbSlot := some ⟨stateKey, s1, n1, hashStr (stringify s1)⟩
        writes := m.writes + 1
        lastStateHash := some (hashStr (stringify s1)) }) s2 n2 fbAvail
      (by simpa using hIdb) (by simpa using hdb) hfresh2
    rw [hm1, hm2]
    refine ⟨rfl, ?_⟩
    unfold TI89StateManager.loadState
    simp [hIdb, hdb]

/-- Witness for C3 with concrete snapshots 1 and 2 (distinct digests) on a
freshly initialised primary-tier manager. -/
theorem manager_save_dedup_two_writes_witness :
    (TI89StateManager.saveState (σ := Nat) toString id (TI89StateManager.init true none none)
        (some 1) 3 3 true allOk).writes = 1 ∧
    TI89StateManager.saveState (σ := Nat) toString id
        (TI89StateManager.saveState toString id (TI89StateManager.init true none none)
          (some 1) 3 3 true allOk) (some 1) 4 4 true allOk
      = TI89StateManager.saveState toString id (TI89StateManager.init true none none)
          (some 1) 3 3 true allOk ∧
    ((TI89StateManager.saveState (σ := Nat) toString id
        (TI89StateManager.saveState toString id (TI89StateManager.init true none none)
          (some 1) 3 3 true allOk) (some 2) 4 4 true allOk).writes = 2 ∧
      (TI89StateManager.loadState
          (TI89StateManager.saveState (σ := Nat) toString id
            (TI89StateManager.saveState toString id (TI89StateManager.init true none none)
              (some 1) 3 3 true allOk) (some 2) 4 4 true allOk)
          WriteOutcome.ok true).1 = Except.ok (some 2)) := by
  have h := manager_save_dedup_two_writes (σ := Nat) toString id
    (TI89StateManager.init true none none) 1 2 3 4 true rfl rfl (by decide)
  exact ⟨h.1, h.2.1, h.2.2 (by decide)⟩

/-- C6: an inbound message whose origin is not the expected origin, or whose
data lacks a `type` field equal to `'TI89_STATE'`, or whose data lacks a
`state` field, leaves the manager — stored state and remembered digest —
completely unchanged. -/
theorem manager_invalid_message_no_mutation {σ : Type} [DecidableEq σ]
    (stringify : σ → String) (hashStr : String → String) (m : Manager σ)
    (msg : Message σ) (now nowRetry : Nat) (fbAvail : Bool) (o : MSaveOutcomes)
    (h : msg.origin ≠ expectedOrigin ∨
         (∀ d, msg.data = some d → d.msgType ≠ some "TI89_STATE") ∨
         (∀ d, msg.data = some d → d.state = none)) :
    onMessage stringify hashStr m msg now nowRetry fbAvail o = m := by
  unfold onMessage
  rcases h with h | h | h
  · simp [h]
  · by_cases ho : msg.origin = expectedOrigin
    · simp only [ho, ne_eq, not_true_eq_false, if_false]
      cases hd : msg.data with
      | none => rfl
      | some d => simp [h d hd]
    · simp [ho]
  · by_cases ho : msg.origin = expectedOrigin
    · simp only [ho, ne_eq, not_true_eq_false, if_false]
      cases hd : msg.data with
      | none => rfl
      | some d =>
        by_cases ht : d.msgType = some "TI89_STATE"
        · simp [ht, h d hd, TI89StateManager.saveState]
        · simp [ht]
    · simp [ho]

/-- Witness for C6: a well-formed state message from a wrong origin leaves a
fresh manager untouched. -/
theorem manager_invalid_message_no_mutation_witness :
    onMessage (σ := Nat) toString id (TI89StateManager.init true none none)
        ⟨"https://attacker.example", some ⟨some "TI89_STATE", some 1⟩⟩ 0 0 true allOk
      = TI89StateManager.init true none none :=
  manager_invalid_message_no_mutation toString id (TI89StateManager.init true none none)
    ⟨"https://attacker.example", some ⟨some "TI89_STATE", some 1⟩⟩ 0 0 true allOk
    (Or.inl (by decide))

/-- C9: on both storage tiers, `loadState()` after `clearState()` returns
null.  First conjunct: a primary-tier manager (IndexedDB active, delete and
read succeeding).  Second conjunct: a fallback-tier manager (localStorage
available at clear time); the subsequent load returns null whatever the
availability probe then says. -/
theorem manager_load_after_clear_null {σ : Type} [DecidableEq σ]
    (m mf : Manager σ) (fbAvail2 : Bool)
    (h1 : m.useIndexedDB = true) (h2 : m.dbOpen = true)
    (h3 : mf.useIndexedDB = false) (h4 : mf.hasFallback = true) :
    (TI89StateManager.loadState (TI89StateManager.clearState m WriteOutcome.ok true)
        WriteOutcome.ok true).1 = Except.ok none ∧
    (TI89StateManager.loadState (TI89StateManager.clearState mf WriteOutcome.ok true)
        WriteOutcome.ok fbAvail2).1 = Except.ok none := by
  constructor
  · unfold TI89StateManager.clearState TI89StateManager.loadState
    cases hf : m.hasFallback with
    | false => simp [h1, h2, hf]
    | true => simp [h1, h2, hf]
  · unfold TI89StateManager.clearState TI89StateManager.loadState
      TI89StorageFallback.clearState TI89StorageFallback.loadState
    cases fbAvail2 with
    | false => simp [h3, h4]
    | true => simp [h3, h4]

/-- Witness for C9 on two concrete managers holding a record on each tier. -/
theorem manager_load_after_clear_null_witness :
    (TI89StateManager.loadState
        (TI89StateManager.clearState
          (TI89StateManager.init (σ := Nat) true (some ⟨stateKey, 1, 0, "1"⟩) none)
          WriteOutcome.ok true)
        WriteOutcome.ok true).1 = Except.ok none ∧
    (TI89StateManager.loadState
        (TI89StateManager.clearState
          (TI89StateManager.init (σ := Nat) false none (some ⟨some ⟨1, 0, 1⟩, [⟨1, 0, 1⟩]⟩))
          WriteOutcome.ok true)
        WriteOutcome.ok true).1 = Except.ok none :=
  manager_load_after_clear_null
    (TI89StateManager.init (σ := Nat) true (some ⟨stateKey, 1, 0, "1"⟩) none)
    (TI89StateManager.init (σ := Nat) false none (some ⟨some ⟨1, 0, 1⟩, [⟨1, 0, 1⟩]⟩))
    true rfl rfl rfl rfl

/-- C10 (implicit): after a successful `clearState()` on a primary-tier
manager the remembered deduplication digest is reset to null, so saving a
snapshot identical to the one saved before the clear performs a real
underlying write again (two writes in total) and stores the record. -/
theorem manager_clear_resets_digest {σ : Type} [DecidableEq σ]
    (stringify : σ → String) (hashStr : String → String) (m : Manager σ) (s : σ)
    (n1 n2 : Nat) (fbAvail : Bool)
    (hIdb : m.useIndexedDB = true) (hdb : m.dbOpen = true)
    (hnf : m.hasFallback = false)
    (hfresh : m.lastStateHash ≠ some (hashStr (stringify s))) :
    (TI89StateManager.clearState
        (TI89StateManager.saveState stringify hashStr m (some s) n1 n1 fbAvail allOk)
        WriteOutcome.ok fbAvail).lastStateHash = none ∧
    (TI89StateManager.saveState stringify hashStr
        (TI89StateManager.clearState
          (TI89StateManager.saveState stringify hashStr m (some s) n1 n1 fbAvail allOk)
          WriteOutcome.ok fbAvail)
        (some s) n2 n2 fbAvail allOk).writes = m.writes + 2 ∧
    (TI89StateManager.saveState stringify hashStr
        (TI89StateManager.clearState
          (TI89StateManager.saveState stringify hashStr m (some s) n1 n1 fbAvail allOk)
          WriteOutcome.ok fbAvail)
        (some s) n2 n2 fbAvail allOk).idbSlot
      = some ⟨stateKey, s, n2, hashStr (stringify s)⟩ := by
  have hm1 := manager_saveState_primary_ok stringify hashStr m s n1 fbAvail hIdb hdb hfresh
  rw [hm1]
  have hm2 : TI89StateManager.clearState ({ m with
      idbSlot := some ⟨stateKey, s, n1, hashStr (stringify s)⟩
      writes := m.writes + 1
      lastStateHash := some (hashStr (stringify s)) }) WriteOutcome.ok fbAvail
      = { m with
      idbSlot := none
      writes := m.writes + 1
      lastStateHash := none } := by
    unfold TI89StateManager.clearState
    simp [hIdb, hdb, hnf]
  rw [hm2]
  have hm3 := manager_saveState_primary_ok stringify hashStr ({ m with
      idbSlot := none
      writes := m.writes + 1
      lastStateHash := none }) s n2 fbAvail (by simpa using hIdb) (by simpa using hdb)
    (by simp)
  rw [hm3]
  exact ⟨rfl, rfl, rfl⟩

/-- Witness for C10: identical snapshot saved, cleared, saved again on a
fresh primary-tier manager. -/
theorem manager_clear_resets_digest_witness :
    (TI89StateManager.clearState
        (TI89StateManager.saveState (σ := Nat) toString id
          (TI89StateManager.init true none none) (some 1) 3 3 true allOk)
        WriteOutcome.ok true).lastStateHash = none ∧
    (TI89StateManager.saveState (σ := Nat) toString id
        (TI89StateManager.clearState
          (TI89StateManager.saveState toString id (TI89StateManager.init true none none)
            (some 1) 3 3 true allOk)
          WriteOutcome.ok true)
        (some 1) 4 4 true allOk).writes = 2 ∧
    (TI89StateManager.saveState (σ := Nat) toString id
        (TI89StateManager.clearState
          (TI89StateManager.saveState toString id (TI89StateManager.init true none none)
            (some 1) 3 3 true allOk)
          WriteOutcome.ok true)
        (some 1) 4 4 true allOk).idbSlot = some ⟨stateKey, 1, 4, "1"⟩ :=
  manager_clear_resets_digest toString id (TI89StateManager.init true none none)
    1 3 4 true rfl rfl rfl (by decide)

/-- C1 (evaluation at the failing input): on a session whose IndexedDB
initialisation succeeded, `fallbackStorage` is null, so after a failing
primary-tier write the first save performs no write, and a subsequent
`saveState` of the same content performs no write either (the fallback
branch is unreachable); `loadState()` then resolves to null instead of the
saved content.  The second call leaves the manager bit-for-bit unchanged. -/
theorem manager_primary_failure_no_fallback_eval :
    (TI89StateManager.saveState (σ := Nat) toString id
        (TI89StateManager.init true none none) (some 1) 10 10 true
        ⟨WriteOutcome.otherError, WriteOutcome.ok, WriteOutcome.ok, WriteOutcome.ok⟩).hasFallback
      = false ∧
    (TI89StateManager.saveState (σ := Nat) toString id
        (TI89StateManager.saveState toString id (TI89StateManager.init true none none)
          (some 1) 10 10 true
          ⟨WriteOutcome.otherError, WriteOutcome.ok, WriteOutcome.ok, WriteOutcome.ok⟩)
        (some 1) 20 20 true allOk)
      = TI89StateManager.saveState toString id (TI89StateManager.init true none none)
          (some 1) 10 10 true
          ⟨WriteOutcome.otherError, WriteOutcome.ok, WriteOutcome.ok, WriteOutcome.ok⟩ ∧
    (TI89StateManager.saveState (σ := Nat) toString id
        (TI89StateManager.saveState toString id (TI89StateManager.init true none none)
          (some 1) 10 10 true
          ⟨WriteOutcome.otherError, WriteOutcome.ok, WriteOutcome.ok, WriteOutcome.ok⟩)
        (some 1) 20 20 true allOk).writes = 0 ∧
    (TI89StateManager.saveState (σ := Nat) toString id
        (TI89StateManager.saveState toString id (TI89StateManager.init true none none)
          (some 1) 10 10 true
          ⟨WriteOutcome.otherError, WriteOutcome.ok, WriteOutcome.ok, WriteOutcome.ok⟩)
        (some 1) 20 20 true allOk).lsSlot = none ∧
    (TI89StateManager.loadState
        (TI89StateManager.saveState (σ := Nat) toString id
          (TI89StateManager.saveState toString id (TI89StateManager.init true none none)
            (some 1) 10 10 true
            ⟨WriteOutcome.otherError, WriteOutcome.ok, WriteOutcome.ok, WriteOutcome.ok⟩)
          (some 1) 20 20 true allOk)
        WriteOutcome.ok true).1 = Except.ok none :=
  ⟨rfl, rfl, rfl, rfl, rfl⟩

/-- C2 (evaluation at the failing input): with the primary tier active, a
failing IndexedDB read makes `loadState()` hand its caller a rejected
promise carrying the storage error, rather than resolving to null. -/
theorem manager_load_error_rejects_eval :
    (TI89StateManager.loadState (σ := Nat) (TI89StateManager.init true none none)
        WriteOutcome.otherError true).1 = Except.error WriteOutcome.otherError :=
  rfl

/-- C7 counterexample: at a concrete input (fresh bridge, embedded, snapshot
`1` serialized by `toString`) the bridge posts exactly one message, and its
type tag is `"TI89_STATE"`, not `"STATE"` as the claim states. -/
theorem bridge_tag_counterexample :
    (captureCalculatorState (fun n : Nat => toString n) ⟨none⟩ 1 true).2
      = [⟨"TI89_STATE", 1, "*"⟩] ∧
    ∀ msg ∈ (captureCalculatorState (fun n : Nat => toString n) ⟨none⟩ 1 true).2,
      msg.msgType ≠ "STATE" := by
  decide

/-- C7 (amended): if the serialization of the newly gathered state equals
the last emitted serialization, `captureCalculatorState` is a no-op (no
message posted, bridge state unchanged); otherwise, when running embedded,
it posts exactly one message tagged `{type: "TI89_STATE", state}` to the
parent context with the unrestricted target origin `"*"`. -/
theorem bridge_capture_dedup_and_post {σ : Type} (stringify : σ → String)
    (b : Bridge) (g : σ) (hasParent : Bool) :
    (b.lastScreenCapture = some (stringify g) →
      captureCalculatorState stringify b g hasParent = (b, [])) ∧
    (b.lastScreenCapture ≠ some (stringify g) → hasParent = true →
      captureCalculatorState stringify b g hasParent
        = (⟨some (stringify g)⟩, [⟨"TI89_STATE", g, "*"⟩])) := by
  unfold captureCalculatorState
  constructor
  · intro h
    simp [h]
  · intro h hp
    simp [h, hp]

/-- Witness for C7 (amended): a changed serialization posts the single
tagged message; repeating the same snapshot is then a no-op. -/
theorem bridge_capture_dedup_and_post_witness :
    captureCalculatorState (fun n : Nat => toString n) ⟨none⟩ 2 true
      = (⟨some "2"⟩, [⟨"TI89_STATE", 2, "*"⟩]) ∧
    captureCalculatorState (fun n : Nat => toString n) ⟨some "2"⟩ 2 true
      = (⟨some "2"⟩, []) :=
  ⟨(bridge_capture_dedup_and_post (fun n : Nat => toString n) ⟨none⟩ 2 true).2
      (by decide) rfl,
   (bridge_capture_dedup_and_post (fun n : Nat => toString n) ⟨some "2"⟩ 2 true).1
      (by decide)⟩

/-- C8: when the address poll observes the embedded frame's address as
`about:blank` nothing happens; when it then observes a non-blank, non-empty
URL `u` different from the remembered one, exactly one save fires,
appending one `{url, timestamp, userAgent, viewport}` record carrying `u`
to the save log and persisting it (with its wrapper) in both storage slots;
a further poll observing the same address changes nothing. -/
theorem ios_poll_fires_single_save (m : IOSManager) (u s1 s2 s3 : String)
    (env1 env2 env3 : IOSEnv)
    (hif : m.iframeSet = true) (hsa : m.storageAvailable = true)
    (hu1 : u ≠ "") (hu2 : u ≠ "about:blank") (hlast : m.lastUrl ≠ u) :
    captureIframeState m ⟨some "about:blank", s1⟩ env1 WriteOutcome.ok WriteOutcome.ok
      = m ∧
    (captureIframeState m ⟨some u, s2⟩ env2 WriteOutcome.ok WriteOutcome.ok).saveLog
      = m.saveLog ++ [⟨u, env2.now, env2.userAgent, env2.viewportW, env2.viewportH⟩] ∧
    (captureIframeState m ⟨some u, s2⟩ env2 WriteOutcome.ok WriteOutcome.ok).slotState
      = some ⟨⟨u, env2.now, env2.userAgent, env2.viewportW, env2.viewportH⟩,
              env2.now2, "1.1"⟩ ∧
    (captureIframeState m ⟨some u, s2⟩ env2 WriteOutcome.ok WriteOutcome.ok).slotUrl
      = some u ∧
    captureIframeState
        (captureIframeState m ⟨some u, s2⟩ env2 WriteOutcome.ok WriteOutcome.ok)
        ⟨some u, s3⟩ env3 WriteOutcome.ok WriteOutcome.ok
      = captureIframeState m ⟨some u, s2⟩ env2 WriteOutcome.ok WriteOutcome.ok := by
  have hblank : captureIframeState m ⟨some "about:blank", s1⟩ env1
      WriteOutcome.ok WriteOutcome.ok = m := by
    unfold captureIframeState
    simp [hif, hsa]
  have hstep : captureIframeState m ⟨some u, s2⟩ env2 WriteOutcome.ok WriteOutcome.ok
      = { m with
        lastUrl := u
        slotState := some ⟨⟨u, env2.now, env2.userAgent, env2.viewportW, env2.viewportH⟩,
                            env2.now2, "1.1"⟩
        slotUrl := some u
        saveLog := m.saveLog ++
          [⟨u, env2.now, env2.userAgent, env2.viewportW, env2.viewportH⟩] } := by
    unfold captureIframeState IOSStateManager.saveState
    simp [hif, hsa, hu1, hu2, Ne.symm hlast]
  refine ⟨hblank, ?_, ?_, ?_, ?_⟩
  · rw [hstep]
  · rw [hstep]
  · rw [hstep]
  · rw [hstep]
    unfold captureIframeState
    simp [hif, hsa]

/-- Witness for C8 on a fresh manager and the address `https://x/y`. -/
theorem ios_poll_fires_single_save_witness :
    captureIframeState ⟨true, true, "", none, none, []⟩
        ⟨some "about:blank", "https://x/y"⟩ ⟨1, 1, "ua", 320, 480⟩
        WriteOutcome.ok WriteOutcome.ok
      = ⟨true, true, "", none, none, []⟩ ∧
    (captureIframeState ⟨true, true, "", none, none, []⟩
        ⟨some "https://x/y", "https://x/y"⟩ ⟨2, 2, "ua", 320, 480⟩
        WriteOutcome.ok WriteOutcome.ok).saveLog
      = [⟨"https://x/y", 2, "ua", 320, 480⟩] ∧
    captureIframeState
        (captureIframeState ⟨true, true, "", none, none, []⟩
          ⟨some "https://x/y", "https://x/y"⟩ ⟨2, 2, "ua", 320, 480⟩
          WriteOutcome.ok WriteOutcome.ok)
        ⟨some "https://x/y", "https://x/y"⟩ ⟨3, 3, "ua", 320, 480⟩
        WriteOutcome.ok WriteOutcome.ok
      = captureIframeState ⟨true, true, "", none, none, []⟩
          ⟨some "https://x/y", "https://x/y"⟩ ⟨2, 2, "ua", 320, 480⟩
          WriteOutcome.ok WriteOutcome.ok := by
  have h := ios_poll_fires_single_save ⟨true, true, "", none, none, []⟩
    "https://x/y" "https://x/y" "https://x/y" "https://x/y"
    ⟨1, 1, "ua", 320, 480⟩ ⟨2, 2, "ua", 320, 480⟩ ⟨3, 3, "ua", 320, 480⟩
    rfl rfl (by decide) (by decide) (by decide)
  exact ⟨h.1, h.2.1.trans rfl, h.2.2.2.2⟩

end TI89
